import Mathlib

/-!
Shallow embedding of the NEM12 report checker core (src/ui/app.ts):
the tokenizer (parseCSV), the record classifier and interval extractor
(parseNem12Structure), the diff engine (parseAndCompareNem12) and the
CSV export row builder (escapeCSVField / the detail-row join), together
with theorems settling the frozen claims about them.

JavaScript-specific semantics that the embedding reproduces:
- String.prototype.split with a one-character separator keeps empty pieces;
- content.split with the line regex treats every newline as a separator and
  consumes one carriage return directly before it;
- the logical-or fallback on strings treats the empty string as falsy;
- parseInt(s, 10) reads an optional sign and the longest digit prefix;
- a Map whose keys are objects compares keys by reference, so a freshly
  allocated key object is never found by has/get, which we model by giving
  every allocated key object a unique refId.
-/

namespace NEM12

/-- Whitespace characters removed by the JavaScript trim used on cells and
lines: ASCII blanks, tab, line feed, carriage return, vertical tab, form
feed, no-break space and the BOM. -/
def isJsSpace (c : Char) : Bool :=
  c = ' ' || c = '\t' || c = '\n' || c = '\r' || c = Char.ofNat 11 ||
  c = Char.ofNat 12 || c = Char.ofNat 160 || c = Char.ofNat 65279

/-- Trim on the character list: drop leading and trailing JS whitespace. -/
def trimChars (cs : List Char) : List Char :=
  ((cs.dropWhile isJsSpace).reverse.dropWhile isJsSpace).reverse

/-- The trim applied by the source to every cell and line. -/
def jsTrim (s : String) : String :=
  String.mk (trimChars s.data)

/-- Split a string at every occurrence of one character, keeping empty
pieces, as String.prototype.split with a one-character string does. -/
def splitOnCharAux (c : Char) : List Char → List Char → List String
  | [], acc => [String.mk acc.reverse]
  | x :: xs, acc =>
      if x = c then String.mk acc.reverse :: splitOnCharAux c xs []
      else splitOnCharAux c xs (x :: acc)

def splitOnChar (c : Char) (s : String) : List String :=
  splitOnCharAux c s.data []

/-- Remove one carriage return from the end of a line, if present. -/
def stripTrailingCR (s : String) : String :=
  match s.data.reverse with
  | '\r' :: rest => String.mk rest.reverse
  | _ => s

/-- Apply a function to every element of a list except the last one. -/
def mapInit (f : String → String) : List String → List String
  | [] => []
  | [x] => [x]
  | x :: y :: xs => f x :: mapInit f (y :: xs)

/-- content.split with the line-ending regex of the source: every newline
separates, and a carriage return immediately before a newline is consumed
with it (a trailing carriage return on the final piece stays). -/
def splitLines (content : String) : List String :=
  mapInit stripTrailingCR (splitOnChar '\n' content)

/-- Count the occurrences of a character in a line, as the global regex
match in the delimiter detection does. -/
def countChar (c : Char) (s : String) : Nat :=
  (s.data.filter (fun x => x = c)).length

/-- The delimiter candidates, in the order the source tries them. -/
def candidateDelims : List Char := [',', '|', ';', '\t']

/-- The delimiter-selection loop of the source: start from the first
candidate and its count, and replace the current best only on a strictly
larger count. -/
def pickBestDelim (cnt : Char → Nat) : Char → Nat → List Char → Char
  | best, _, [] => best
  | best, bestCount, d :: ds =>
      if bestCount < cnt d then pickBestDelim cnt d (cnt d) ds
      else pickBestDelim cnt best bestCount ds

/-- Delimiter auto-detection: take the first line whose trim is non-empty
and run the selection loop on it; with no such line the delimiter stays the
comma. -/
def detectDelimiter (lines : List String) : Char :=
  match lines.find? (fun l => decide (jsTrim l ≠ "")) with
  | some line =>
      pickBestDelim (fun d => countChar d line) ',' (countChar ',' line) ['|', ';', '\t']
  | none => ','

def headIs (cs : List Char) (c : Char) : Bool :=
  match cs with
  | [] => false
  | x :: _ => x = c

def lastIs (cs : List Char) (c : Char) : Bool :=
  headIs cs.reverse c

/-- The single-quote character, kept as a named constant. -/
def squote : Char := Char.ofNat 39

/-- Cell post-processing of the source: trim, then strip one pair of
wrapping double or single quotes (slice(1, -1)). -/
def processCell (cell : String) : String :=
  let t := jsTrim cell
  if (headIs t.data '"' && lastIs t.data '"') ||
     (headIs t.data squote && lastIs t.data squote) then
    String.mk ((t.data.drop 1).dropLast)
  else t

/-- Split one line into processed cells with the detected delimiter. -/
def splitRow (delim : Char) (line : String) : List String :=
  (splitOnChar delim line).map processCell

/-- The tokenizer parseCSV of the source: split into lines, detect the
delimiter once, then split every non-blank line with it. -/
def parseCSV (content : String) : List (List String) :=
  let lines := splitLines content
  let delimiter := detectDelimiter lines
  (lines.filter (fun l => decide (jsTrim l ≠ ""))).map (splitRow delimiter)

/-- row[i] with the out-of-range access giving the empty string (undefined
and the empty string behave identically under the falsy fallbacks that
consume these cells). -/
def cellOr (row : List String) (i : Nat) : String :=
  row.getD i ""

/-- The JavaScript logical-or fallback on strings: the empty string falls
through to the alternative. -/
def jsOr (a b : String) : String :=
  if a = "" then b else a

def digitsPrefix : List Char → List Char
  | [] => []
  | c :: cs => if c.isDigit then c :: digitsPrefix cs else []

def digitsToNat (ds : List Char) : Nat :=
  ds.foldl (fun acc c => acc * 10 + (c.toNat - 48)) 0

/-- parseInt(s, 10): optional sign, then the longest digit prefix; none
models NaN. -/
def parseIntJs (s : String) : Option Int :=
  match s.data with
  | [] => none
  | c :: cs =>
      if c = '-' then
        match digitsPrefix cs with
        | [] => none
        | ds => some (-(digitsToNat ds : Int))
      else if c = '+' then
        match digitsPrefix cs with
        | [] => none
        | ds => some (digitsToNat ds : Int)
      else
        match digitsPrefix (c :: cs) with
        | [] => none
        | ds => some (digitsToNat ds : Int)

/-- The interval length read from a 200 record: parse the cell, and fall
back to 30 on NaN or a non-positive value. -/
def readIntervalLength (raw : String) : Nat :=
  match parseIntJs raw with
  | none => 30
  | some n => if n ≤ 0 then 30 else n.toNat

/-- The logical interval key: the value content of the key objects the
source builds for every 300-row cell. -/
structure IntervalKey where
  nmi : String
  channel : String
  date : String
  intervalIndex : Nat
deriving DecidableEq

/-- A key object as allocated by the source: its value fields plus a refId
modelling JavaScript object identity (every allocation is distinct). -/
structure KeyObj where
  refId : Nat
  nmi : String
  channel : String
  date : String
  intervalIndex : Nat
deriving DecidableEq

/-- The value content of a key object; JSON.stringify with the fixed
property order nmi, channel, date, intervalIndex is injective on exactly
this quadruple, so keyStr equality in the source is equality of this
structure. -/
def valueKey (k : KeyObj) : IntervalKey :=
  ⟨k.nmi, k.channel, k.date, k.intervalIndex⟩

structure IntervalReading where
  value : String
  rowNumber : Nat
deriving DecidableEq

/-- The interval Map of the source, in insertion order. Keys are objects,
so has/get/set compare by refId (reference identity). -/
abbrev IntervalMap := List (KeyObj × IntervalReading)

def mapHas (m : IntervalMap) (k : KeyObj) : Bool :=
  m.any (fun e => e.1.refId = k.refId)

def mapGet? (m : IntervalMap) (k : KeyObj) : Option IntervalReading :=
  (m.find? (fun e => decide (e.1.refId = k.refId))).map (fun e => e.2)

/-- Map.prototype.set: replace in place when the key is present, append
otherwise. -/
def mapSet (m : IntervalMap) (k : KeyObj) (r : IntervalReading) : IntervalMap :=
  if mapHas m k then
    m.map (fun e => if e.1.refId = k.refId then (e.1, r) else e)
  else m ++ [(k, r)]

/-- The dataset built from one file: first record type plus the interval
Map. -/
structure Dataset where
  firstRecordType : String
  intervals : IntervalMap

/-- The quality flags recognised on a 300 record. -/
def qualityFlags : List String := ["A", "V", "E", "F", "N", "S", "R", "C", "D"]

/-- The test applied to cell i while scanning for the quality flag: the
trimmed cell is non-empty, one character long, and one of the flags. -/
def qualCond (row : List String) (i : Nat) : Bool :=
  let val := jsTrim (cellOr row i)
  decide (val ≠ "") && decide (val.length = 1) && qualityFlags.contains val

/-- The downward scan of the source: from the start index toward index 2,
return the first index satisfying the quality test. -/
def scanQuality (row : List String) : Nat → Option Nat
  | 0 => none
  | 1 => none
  | Nat.succ (Nat.succ i) =>
      if qualCond row (i + 2) then some (i + 2)
      else scanQuality row (i + 1)

/-- The interval-value slice of a 300 row: cells [2, qualityIdx) when a
flag sits at an index above 2, otherwise the expected-count fallback slice
[2, 2+expected) clamped to the row length. -/
def extractValues (row : List String) (intervalLength : Nat) : List String :=
  match scanQuality row (row.length - 1) with
  | some qualityIdx =>
      if 2 < qualityIdx then
        ((row.drop 2).take (qualityIdx - 2)).map jsTrim
      else
        let expected := if intervalLength = 30 then 48
          else max 1 ((24 * 60) / (max 1 intervalLength))
        let endIdx := min (2 + expected) row.length
        ((row.drop 2).take (endIdx - 2)).map jsTrim
  | none =>
      let expected := if intervalLength = 30 then 48
        else max 1 ((24 * 60) / (max 1 intervalLength))
      let endIdx := min (2 + expected) row.length
      ((row.drop 2).take (endIdx - 2)).map jsTrim

/-- The mutable scanning state of parseNem12Structure, plus the refId
allocator for key objects. -/
structure ParseState where
  firstRecordType : String
  currentNmi : String
  currentChannel : String
  intervalLength : Nat
  intervals : IntervalMap
  nextId : Nat
deriving DecidableEq

def initState : ParseState :=
  ⟨"", "", "", 30, [], 0⟩

/-- The per-cell loop of a 300 row: allocate a fresh key object for each
value position and store the reading when the key is absent or its stored
value is empty (the short-circuit condition of the source). -/
def add300Values (date : String) (rowNumber : Nat) :
    ParseState → Nat → List String → ParseState
  | st, _, [] => st
  | st, idx, v :: vs =>
      let k : KeyObj := ⟨st.nextId, st.currentNmi, st.currentChannel, date, idx⟩
      let st2 : ParseState := { st with nextId := st.nextId + 1 }
      let st3 : ParseState :=
        if (!mapHas st2.intervals k) ||
           (match mapGet? st2.intervals k with
            | some r => decide (r.value = "")
            | none => true) then
          { st2 with intervals := mapSet st2.intervals k ⟨v, rowNumber⟩ }
        else st2
      add300Values date rowNumber st3 (idx + 1) vs

/-- One iteration of the row loop of parseNem12Structure. rowNum is the
0-based index of the row. -/
def processRow (st : ParseState) (rowNum : Nat) (row : List String) : ParseState :=
  if row.length = 0 then st
  else
    let recordType := jsTrim (cellOr row 0)
    let st := if st.firstRecordType = "" then { st with firstRecordType := recordType } else st
    if recordType = "200" then
      { st with
        currentNmi := jsTrim (cellOr row 1),
        currentChannel := jsTrim (jsOr (cellOr row 4) (jsOr (cellOr row 2) "UNKNOWN_CHANNEL")),
        intervalLength := readIntervalLength (jsTrim (jsOr (cellOr row 8) (jsOr (cellOr row 7) "30"))) }
    else if recordType = "300" ∧ st.currentNmi ≠ "" ∧ st.currentChannel ≠ "" then
      let date := jsTrim (cellOr row 1)
      if date = "" then st
      else add300Values date (rowNum + 1) st 0 (extractValues row st.intervalLength)
    else st

def parseFold (st : ParseState) : List (Nat × List String) → ParseState
  | [] => st
  | (n, row) :: rest => parseFold (processRow st n row) rest

/-- parseNem12Structure of the source: fold the row loop over the indexed
rows and package the dataset. -/
def parseNem12Structure (rows : List (List String)) : Dataset :=
  let final := parseFold initState rows.enum
  ⟨final.firstRecordType, final.intervals⟩

/-- One issue row of a comparison result. -/
structure Issue where
  sr : Nat
  issue_type : String
  nmi : String
  record_type : String
  channel : String
  date : String
  field_name : String
  after_cell_location : String
  before_value : String
  after_value : String
  details : String
deriving DecidableEq

/-- An issue before its serial number is assigned at push time. -/
structure ProtoIssue where
  issue_type : String
  nmi : String
  record_type : String
  channel : String
  date : String
  field_name : String
  after_cell_location : String
  before_value : String
  after_value : String
  details : String
deriving DecidableEq

def toIssue (n : Nat) (p : ProtoIssue) : Issue :=
  ⟨n, p.issue_type, p.nmi, p.record_type, p.channel, p.date, p.field_name,
   p.after_cell_location, p.before_value, p.after_value, p.details⟩

def stripSr (i : Issue) : ProtoIssue :=
  ⟨i.issue_type, i.nmi, i.record_type, i.channel, i.date, i.field_name,
   i.after_cell_location, i.before_value, i.after_value, i.details⟩

/-- issues.push with sr = issues.length + 1, folded over the emission
order. -/
def numberIssues (ps : List ProtoIssue) : List Issue :=
  ps.foldl (fun acc p => acc ++ [toIssue (acc.length + 1) p]) []

/-- The comparison entry built from one Map binding: the JSON key string
(modelled by the value quadruple, on which the fixed-property-order
stringify is injective), the key object and the reading. -/
structure Entry where
  keyStr : IntervalKey
  key : KeyObj
  interval : IntervalReading
deriving DecidableEq

def toEntries (m : IntervalMap) : List Entry :=
  m.map (fun e => ⟨valueKey e.1, e.1, e.2⟩)

def keyStrs (es : List Entry) : List IntervalKey :=
  es.map (fun e => e.keyStr)

/-- The binding a Map from key strings to entries holds after setting every
entry in order: the last entry with the given key string. -/
def lastEntryWith (es : List Entry) (k : IntervalKey) : Option Entry :=
  es.reverse.find? (fun e => decide (e.keyStr = k))

def structProto (side : String) (rt : String) : ProtoIssue :=
  ⟨"STRUCTURE", "", "", "", "", "", "", "", "",
   side ++ " first record is " ++ rt⟩

def locationText (rowNumber intervalIndex : Nat) : String :=
  "row " ++ Nat.repr rowNumber ++ ", interval " ++ Nat.repr intervalIndex

def missingProto (e : Entry) : ProtoIssue :=
  ⟨"MISSING", e.key.nmi, "300", e.key.channel, e.key.date, "",
   locationText e.interval.rowNumber e.key.intervalIndex,
   e.interval.value, "",
   "Interval present in BEFORE file but missing in AFTER file for NMI " ++
   e.key.nmi ++ ", channel " ++ e.key.channel ++ ", date " ++ e.key.date ++
   ", interval " ++ Nat.repr e.key.intervalIndex ++ "."⟩

def extraProto (e : Entry) : ProtoIssue :=
  ⟨"EXTRA", e.key.nmi, "300", e.key.channel, e.key.date, "",
   locationText e.interval.rowNumber e.key.intervalIndex,
   "", e.interval.value,
   "Extra interval present only in AFTER file (not in BEFORE file) for NMI " ++
   e.key.nmi ++ ", channel " ++ e.key.channel ++ ", date " ++ e.key.date ++
   ", interval " ++ Nat.repr e.key.intervalIndex ++ "."⟩

def mismatchProto (be ae : Entry) (beforeFileName afterFileName : String) : ProtoIssue :=
  ⟨"VALUE_MISMATCH", be.key.nmi, "300", be.key.channel, be.key.date,
   "IntervalValue",
   locationText ae.interval.rowNumber be.key.intervalIndex,
   be.interval.value, ae.interval.value,
   "Value mismatch between BEFORE and AFTER files (" ++ beforeFileName ++
   "=" ++ be.interval.value ++ " vs " ++ afterFileName ++ "=" ++
   ae.interval.value ++ ")."⟩

/-- The structural-check phase: each side independently contributes one
STRUCTURE issue when its first record type is not 100, before side first. -/
def structureProtos (beforeData afterData : Dataset) : List ProtoIssue :=
  (if beforeData.firstRecordType ≠ "100" then
    [structProto "BEFORE" beforeData.firstRecordType] else []) ++
  (if afterData.firstRecordType ≠ "100" then
    [structProto "AFTER" afterData.firstRecordType] else [])

/-- The MISSING phase: before entries whose key string is absent from the
after key set, in before order. -/
def missingProtos (beforeEntries afterEntries : List Entry) : List ProtoIssue :=
  (beforeEntries.filter (fun e => decide (e.keyStr ∉ keyStrs afterEntries))).map missingProto

/-- The EXTRA phase: after entries whose key string is absent from the
before key set, in after order. -/
def extraProtos (beforeEntries afterEntries : List Entry) : List ProtoIssue :=
  (afterEntries.filter (fun e => decide (e.keyStr ∉ keyStrs beforeEntries))).map extraProto

/-- The VALUE_MISMATCH phase: before entries whose key string the after key
set holds, compared against the after-entry Map binding for that key
string (last after entry with it); exact string inequality emits an
issue. -/
def mismatchProtos (beforeEntries afterEntries : List Entry)
    (beforeFileName afterFileName : String) : List ProtoIssue :=
  beforeEntries.filterMap (fun e =>
    if e.keyStr ∈ keyStrs afterEntries then
      match lastEntryWith afterEntries e.keyStr with
      | some ae =>
          if e.interval.value ≠ ae.interval.value then
            some (mismatchProto e ae beforeFileName afterFileName)
          else none
      | none => none
    else none)

/-- The full emission order of the source: structure, missing, extra,
value mismatch. -/
def allProtos (beforeData afterData : Dataset)
    (beforeFileName afterFileName : String) : List ProtoIssue :=
  structureProtos beforeData afterData ++
  missingProtos (toEntries beforeData.intervals) (toEntries afterData.intervals) ++
  extraProtos (toEntries beforeData.intervals) (toEntries afterData.intervals) ++
  mismatchProtos (toEntries beforeData.intervals) (toEntries afterData.intervals)
    beforeFileName afterFileName

/-- The diff engine over two parsed datasets, in the emission order of the
source: structure, missing, extra, value mismatch, numbered at push
time. -/
def compareDatasets (beforeData afterData : Dataset)
    (beforeFileName afterFileName : String) : List Issue :=
  numberIssues (allProtos beforeData afterData beforeFileName afterFileName)

/-- parseAndCompareNem12 of the source. -/
def parseAndCompareNem12 (beforeContent afterContent beforeFileName afterFileName : String) :
    List Issue :=
  compareDatasets
    (parseNem12Structure (parseCSV beforeContent))
    (parseNem12Structure (parseCSV afterContent))
    beforeFileName afterFileName

/-- Modelled from the spec: the batch CLI (outside src/) exits with 0 when
the issue list is empty and 1 when any issue exists. -/
def batchExitCode (issues : List Issue) : Nat :=
  if issues = [] then 0 else 1

def containsChar (s : String) (c : Char) : Bool :=
  s.data.any (fun x => x = c)

def doubleQuotes : List Char → List Char
  | [] => []
  | c :: cs => if c = '"' then '"' :: '"' :: doubleQuotes cs else c :: doubleQuotes cs

/-- escapeCSVField of the source: wrap in double quotes, doubling the inner
ones, when the field holds a comma, newline or double quote. -/
def escapeCSVField (field : String) : String :=
  if containsChar field ',' || containsChar field '\n' || containsChar field '"' then
    "\"" ++ String.mk (doubleQuotes field.data) ++ "\""
  else field

/-- One CSV data row of exportToCSV: the eleven columns joined by commas,
with only the details column passed through escapeCSVField. -/
def csvDetailRow (i : Issue) : String :=
  String.intercalate ","
    [Nat.repr i.sr, i.issue_type, i.nmi, i.record_type, i.channel, i.date,
     i.field_name, i.after_cell_location, i.before_value, i.after_value,
     escapeCSVField i.details]

/-- Modelled from the spec: the data row as the spec describes it, with
every free-text field (all columns except the numeric serial) quote-escaped
when it holds a comma, quote or newline. -/
def csvDetailRowSpec (i : Issue) : String :=
  String.intercalate ","
    [Nat.repr i.sr, escapeCSVField i.issue_type, escapeCSVField i.nmi,
     escapeCSVField i.record_type, escapeCSVField i.channel,
     escapeCSVField i.date, escapeCSVField i.field_name,
     escapeCSVField i.after_cell_location, escapeCSVField i.before_value,
     escapeCSVField i.after_value, escapeCSVField i.details]

/-- A field free of comma, newline and double quote, which escapeCSVField
returns unchanged. -/
def cleanField (s : String) : Bool :=
  !(containsChar s ',' || containsChar s '\n' || containsChar s '"')

/-- A concrete issue whose non-details fields are clean and whose details
field holds a comma. -/
def c7WitnessIssue : Issue :=
  ⟨1, "VALUE_MISMATCH", "NMI1", "300", "E1", "20250101", "IntervalValue",
   "row 3 interval 0", "1.0", "2.0", "values 1.0, 2.0 differ"⟩

/-- A parse state with meter context set, an empty interval Map and a
fresh allocator. -/
def c10WitnessState : ParseState := ⟨"100", "NMI1", "E1", 30, [], 0⟩

/-- Spec-side definition, following the words of the spec: the delimiter is
the candidate with the highest count on the line, ties resolved by
candidate list order. -/
def specBestDelimiter (line : String) : Char :=
  (candidateDelims.find? (fun c =>
    candidateDelims.all (fun c2 => countChar c2 line ≤ countChar c line))).getD ','

/-- Spec-side definition, following the words of the spec: the quality flag
column is the last cell, scanning from the end down to index 2, that is a
single character in the flag set. -/
def specQualityIdx (row : List String) : Option Nat :=
  ((List.range row.length).reverse).find? (fun i => decide (2 ≤ i) && qualCond row i)

/-- Spec-side definition, following the words of the spec: expected
interval count 48 at 30 minutes, otherwise 1440 over the interval length,
rounded down and clamped to a minimum of 1. -/
def specExpectedCount (intervalLength : Nat) : Nat :=
  if intervalLength = 30 then 48 else max 1 (1440 / intervalLength)

/-- Spec-side definition, following the words of the spec: interval values
are cells [2, qualityIdx) when a flag was found above index 2, otherwise
the slice [2, 2+expected) clamped to the row length. -/
def specExtractValues (row : List String) (intervalLength : Nat) : List String :=
  match specQualityIdx row with
  | some qualityIdx =>
      if 2 < qualityIdx then ((row.drop 2).take (qualityIdx - 2)).map jsTrim
      else ((row.drop 2).take (min (2 + specExpectedCount intervalLength) row.length - 2)).map jsTrim
  | none =>
      ((row.drop 2).take (min (2 + specExpectedCount intervalLength) row.length - 2)).map jsTrim

/-- The entries appended by a 300-row cell loop: one entry per value
position, fresh refIds from the allocator, interval indices from the loop
counter, the cell text (possibly empty) as the reading value. -/
def mkEntries (nmi channel date : String) (rowNumber : Nat) :
    Nat → Nat → List String → IntervalMap
  | _, _, [] => []
  | rid, idx, v :: vs =>
      (⟨rid, nmi, channel, date, idx⟩, ⟨v, rowNumber⟩) ::
        mkEntries nmi channel date rowNumber (rid + 1) (idx + 1) vs

/-- A duplicated logical key inside one file: the same interval appears
with readings 5.0 and then 6.0. -/
def c1Content : String :=
  "100,NEM12\n200,NMI1,,,E1,,,,30\n300,20250101,5.0\n300,20250101,6.0"

/-- A file whose first record type is 200, compared against itself. -/
def c2CtrContent : String := "200,X\n300,20250101,1.0"

/-- A well-formed NEM12 content with distinct interval keys. -/
def c2WitnessContent : String :=
  "100,NEM12\n200,NMI1,,,E1,,,,30\n300,20250101,1.0,2.0\n900"

/-- Before side with the interval key duplicated at readings 1.0 and
3.0. -/
def c3BeforeContent : String :=
  "100,NEM12\n200,NMI1,,,E1,,,,30\n300,20250101,1.0\n300,20250101,3.0"

/-- After side carrying the same single interval key at reading 2.0. -/
def c3AfterContent : String :=
  "100,NEM12\n200,NMI1,,,E1,,,,30\n300,20250101,2.0"

/-- Before side for the swap witness: two distinct keys, interval indices
0 and 1 of one day. -/
def c3WitnessBefore : String :=
  "100,NEM12\n200,NMI1,,,E1,,,,30\n300,20250101,1.0,2.0\n900"

/-- After side for the swap witness: the interval index 0 key shared with
the before side but carrying a differing reading. -/
def c3WitnessAfter : String :=
  "100,NEM12\n200,NMI1,,,E1,,,,30\n300,20250101,1.5\n900"

/-- Before side whose NMI differs from the after side only in letter
case. -/
def c4BeforeContent : String :=
  "100,NEM12\n200,nmi1,,,E1,,,,30\n300,20250101,1.0"

/-- After side whose NMI differs from the before side only in letter
case. -/
def c4AfterContent : String :=
  "100,NEM12\n200,NMI1,,,E1,,,,30\n300,20250101,1.0"

/-- Before side producing one MISSING issue whose location field holds a
comma. -/
def c7BeforeContent : String :=
  "100,NEM12\n200,NMI1,,,E1,,,,30\n300,20250101,1.0"

/-- After side with a valid header and no intervals. -/
def c7AfterContent : String := "100,NEM12"

theorem stripSr_toIssue (n : Nat) (p : ProtoIssue) : stripSr (toIssue n p) = p := rfl

theorem enumFrom_map_val {α β : Type} (g : α → β) :
    ∀ (l : List α) (n : Nat), (List.enumFrom n l).map (fun q => g q.2) = l.map g := by
  intro l
  induction l with
  | nil => intro n; rfl
  | cons x xs ih => intro n; simp [List.enumFrom, ih]

theorem numberIssuesAux (ps : List ProtoIssue) :
    ∀ acc : List Issue,
      ps.foldl (fun acc p => acc ++ [toIssue (acc.length + 1) p]) acc =
      acc ++ (List.enumFrom acc.length ps).map (fun q => toIssue (q.1 + 1) q.2) := by
  induction ps with
  | nil => intro acc; simp [List.enumFrom]
  | cons p ps ih =>
      intro acc
      simp only [List.foldl_cons, List.enumFrom, List.map_cons]
      rw [ih]
      simp

theorem numberIssues_eq (ps : List ProtoIssue) :
    numberIssues ps = (List.enumFrom 0 ps).map (fun q => toIssue (q.1 + 1) q.2) := by
  unfold numberIssues
  have h := numberIssuesAux ps []
  simpa using h

theorem numberIssues_map_stripSr (ps : List ProtoIssue) :
    (numberIssues ps).map stripSr = ps := by
  rw [numberIssues_eq, List.map_map]
  have hcomp : (stripSr ∘ fun q : Nat × ProtoIssue => toIssue (q.1 + 1) q.2) =
      fun q : Nat × ProtoIssue => q.2 := by
    funext q; rfl
  rw [hcomp]
  have h := enumFrom_map_val (fun p : ProtoIssue => p) ps 0
  rw [h]
  exact List.map_id ps

theorem mem_numberIssues {ps : List ProtoIssue} {i : Issue}
    (h : i ∈ numberIssues ps) : stripSr i ∈ ps := by
  rw [← numberIssues_map_stripSr ps]
  exact List.mem_map_of_mem stripSr h

theorem mem_numberIssues_of_mem {ps : List ProtoIssue} {p : ProtoIssue}
    (h : p ∈ ps) : ∃ i ∈ numberIssues ps, stripSr i = p := by
  rw [← numberIssues_map_stripSr ps] at h
  exact List.mem_map.mp h

theorem enumFrom_map_sr (l : List ProtoIssue) :
    ∀ n : Nat, (List.enumFrom n l).map (fun q => q.1 + 1) = List.range' (n + 1) l.length := by
  induction l with
  | nil => intro n; simp [List.enumFrom, List.range']
  | cons x xs ih => intro n; simp [List.enumFrom, List.range', ih]

theorem numberIssues_map_sr (ps : List ProtoIssue) :
    (numberIssues ps).map (fun i => i.sr) = List.range' 1 ps.length := by
  rw [numberIssues_eq, List.map_map]
  have hcomp : ((fun i : Issue => i.sr) ∘ fun q : Nat × ProtoIssue => toIssue (q.1 + 1) q.2) =
      fun q : Nat × ProtoIssue => q.1 + 1 := by
    funext q; rfl
  rw [hcomp]
  exact enumFrom_map_sr ps 0

theorem numberIssues_filter_map {β : Type} (ps : List ProtoIssue)
    (qp : ProtoIssue → Bool) (f : ProtoIssue → β) :
    ((numberIssues ps).filter (fun i => qp (stripSr i))).map (fun i => f (stripSr i)) =
    (ps.filter qp).map f := by
  rw [numberIssues_eq, List.filter_map, List.map_map]
  have h1 : ((List.enumFrom 0 ps).filter
      ((fun i => qp (stripSr i)) ∘ (fun q => toIssue (q.1 + 1) q.2))) =
      (List.enumFrom 0 ps).filter (fun q => qp q.2) := by
    apply List.filter_congr
    intro q _
    rfl
  rw [h1]
  have h2 : ∀ (l : List ProtoIssue) (n : Nat),
      ((List.enumFrom n l).filter (fun q => qp q.2)).map
        ((fun i => f (stripSr i)) ∘ (fun q => toIssue (q.1 + 1) q.2)) =
      (l.filter qp).map f := by
    intro l
    induction l with
    | nil => intro n; rfl
    | cons x xs ih =>
        intro n
        simp only [List.enumFrom, List.filter_cons]
        by_cases hq : qp x
        · simp only [hq, if_pos]
          simp [ih, Function.comp, stripSr_toIssue]
        · simp only [hq]
          simp [ih, Function.comp, hq, stripSr_toIssue]
  exact h2 ps 0

theorem numberIssues_map_field {β : Type} (ps : List ProtoIssue) (g : ProtoIssue → β) :
    (numberIssues ps).map (fun i => g (stripSr i)) = ps.map g := by
  have h : (numberIssues ps).map (fun i => g (stripSr i)) =
      ((numberIssues ps).map stripSr).map g := by
    rw [List.map_map]; rfl
  rw [h, numberIssues_map_stripSr]

theorem numberIssues_length (ps : List ProtoIssue) :
    (numberIssues ps).length = ps.length := by
  have h := congrArg List.length (numberIssues_map_stripSr ps)
  simpa using h

theorem map_eq_replicate_of_forall {α β : Type} {l : List α} {f : α → β} {c : β}
    (h : ∀ x ∈ l, f x = c) : l.map f = List.replicate l.length c := by
  induction l with
  | nil => rfl
  | cons x xs ih =>
      simp only [List.map_cons, List.length_cons, List.replicate]
      rw [h x (List.mem_cons_self x xs),
        ih (fun y hy => h y (List.mem_cons_of_mem x hy))]

theorem mem_structureProtos_type {bd ad : Dataset} {p : ProtoIssue}
    (h : p ∈ structureProtos bd ad) : p.issue_type = "STRUCTURE" := by
  unfold structureProtos at h
  rcases List.mem_append.mp h with h1 | h1 <;> split at h1 <;> simp_all [structProto]

theorem mem_missingProtos_type {B A : List Entry} {p : ProtoIssue}
    (h : p ∈ missingProtos B A) : p.issue_type = "MISSING" := by
  unfold missingProtos at h
  rcases List.mem_map.mp h with ⟨e, _, he⟩
  rw [← he]; rfl

theorem mem_extraProtos_type {B A : List Entry} {p : ProtoIssue}
    (h : p ∈ extraProtos B A) : p.issue_type = "EXTRA" := by
  unfold extraProtos at h
  rcases List.mem_map.mp h with ⟨e, _, he⟩
  rw [← he]; rfl

theorem mem_mismatchProtos_type {B A : List Entry} {bn an : String} {p : ProtoIssue}
    (h : p ∈ mismatchProtos B A bn an) : p.issue_type = "VALUE_MISMATCH" := by
  unfold mismatchProtos at h
  rcases List.mem_filterMap.mp h with ⟨e, _, he⟩
  split at he
  · cases hle : lastEntryWith A e.keyStr with
    | none => rw [hle] at he; simp at he
    | some ae =>
        rw [hle] at he
        dsimp only at he
        by_cases hv : e.interval.value ≠ ae.interval.value
        · rw [if_pos hv] at he
          injection he with he
          rw [← he]; rfl
        · rw [if_neg hv] at he
          exact absurd he (by simp)
  · simp at he

theorem allProtos_filter_structure (bd ad : Dataset) (bn an : String) :
    (allProtos bd ad bn an).filter (fun p => decide (p.issue_type = "STRUCTURE")) =
    structureProtos bd ad := by
  unfold allProtos
  rw [List.filter_append, List.filter_append, List.filter_append]
  rw [List.filter_eq_self.mpr (fun p hp => by simp [mem_structureProtos_type hp]),
    List.filter_eq_nil_iff.mpr (fun p hp => by simp [mem_missingProtos_type hp]),
    List.filter_eq_nil_iff.mpr (fun p hp => by simp [mem_extraProtos_type hp]),
    List.filter_eq_nil_iff.mpr (fun p hp => by simp [mem_mismatchProtos_type hp])]
  simp

theorem allProtos_filter_missing (bd ad : Dataset) (bn an : String) :
    (allProtos bd ad bn an).filter (fun p => decide (p.issue_type = "MISSING")) =
    missingProtos (toEntries bd.intervals) (toEntries ad.intervals) := by
  unfold allProtos
  rw [List.filter_append, List.filter_append, List.filter_append]
  rw [List.filter_eq_nil_iff.mpr (fun p hp => by simp [mem_structureProtos_type hp]),
    List.filter_eq_self.mpr (fun p hp => by simp [mem_missingProtos_type hp]),
    List.filter_eq_nil_iff.mpr (fun p hp => by simp [mem_extraProtos_type hp]),
    List.filter_eq_nil_iff.mpr (fun p hp => by simp [mem_mismatchProtos_type hp])]
  simp

theorem allProtos_filter_extra (bd ad : Dataset) (bn an : String) :
    (allProtos bd ad bn an).filter (fun p => decide (p.issue_type = "EXTRA")) =
    extraProtos (toEntries bd.intervals) (toEntries ad.intervals) := by
  unfold allProtos
  rw [List.filter_append, List.filter_append, List.filter_append]
  rw [List.filter_eq_nil_iff.mpr (fun p hp => by simp [mem_structureProtos_type hp]),
    List.filter_eq_nil_iff.mpr (fun p hp => by simp [mem_missingProtos_type hp]),
    List.filter_eq_self.mpr (fun p hp => by simp [mem_extraProtos_type hp]),
    List.filter_eq_nil_iff.mpr (fun p hp => by simp [mem_mismatchProtos_type hp])]
  simp

theorem allProtos_filter_mismatch (bd ad : Dataset) (bn an : String) :
    (allProtos bd ad bn an).filter (fun p => decide (p.issue_type = "VALUE_MISMATCH")) =
    mismatchProtos (toEntries bd.intervals) (toEntries ad.intervals) bn an := by
  unfold allProtos
  rw [List.filter_append, List.filter_append, List.filter_append]
  rw [List.filter_eq_nil_iff.mpr (fun p hp => by simp [mem_structureProtos_type hp]),
    List.filter_eq_nil_iff.mpr (fun p hp => by simp [mem_missingProtos_type hp]),
    List.filter_eq_nil_iff.mpr (fun p hp => by simp [mem_extraProtos_type hp]),
    List.filter_eq_self.mpr (fun p hp => by simp [mem_mismatchProtos_type hp])]
  simp

theorem structureProtos_map_details (bd ad : Dataset) :
    (structureProtos bd ad).map (fun p => p.details) =
    (if bd.firstRecordType ≠ "100" then
      ["BEFORE first record is " ++ bd.firstRecordType] else []) ++
    (if ad.firstRecordType ≠ "100" then
      ["AFTER first record is " ++ ad.firstRecordType] else []) := by
  unfold structureProtos
  split_ifs <;> simp [structProto]

/-- The filtered issue projection of a comparison, pushed down to the
proto phase: filtering the numbered issues of compareDatasets on an issue
type and projecting a field equals the same filter and projection on the
protos. -/
theorem compare_filter_map {β : Type} (bd ad : Dataset) (bn an : String)
    (qp : ProtoIssue → Bool) (f : ProtoIssue → β) :
    ((compareDatasets bd ad bn an).filter (fun i => qp (stripSr i))).map
      (fun i => f (stripSr i)) =
    ((allProtos bd ad bn an).filter qp).map f := by
  unfold compareDatasets
  exact numberIssues_filter_map _ qp f

/-- Claim C5: for every comparison, the issue list comes in the fixed
order all STRUCTURE issues first (the before-side one before the
after-side one), then all MISSING, then all EXTRA, then all
VALUE_MISMATCH, and each sr field equals the 1-based position of its
issue, sequentially from 1 with no gaps. -/
theorem c5_issue_order_and_sr (b a n1 n2 : String) :
    (parseAndCompareNem12 b a n1 n2).map (fun i => i.sr) =
      List.range' 1 (parseAndCompareNem12 b a n1 n2).length ∧
    (∃ k1 k2 k3 k4 : Nat,
      (parseAndCompareNem12 b a n1 n2).map (fun i => i.issue_type) =
        List.replicate k1 "STRUCTURE" ++ List.replicate k2 "MISSING" ++
        List.replicate k3 "EXTRA" ++ List.replicate k4 "VALUE_MISMATCH") ∧
    ((parseAndCompareNem12 b a n1 n2).filter
        (fun i => decide (i.issue_type = "STRUCTURE"))).map (fun i => i.details) =
    (if (parseNem12Structure (parseCSV b)).firstRecordType ≠ "100" then
      ["BEFORE first record is " ++ (parseNem12Structure (parseCSV b)).firstRecordType]
     else []) ++
    (if (parseNem12Structure (parseCSV a)).firstRecordType ≠ "100" then
      ["AFTER first record is " ++ (parseNem12Structure (parseCSV a)).firstRecordType]
     else []) := by
  refine ⟨?_, ?_, ?_⟩
  · have h := numberIssues_map_sr
      (allProtos (parseNem12Structure (parseCSV b)) (parseNem12Structure (parseCSV a)) n1 n2)
    have hlen := numberIssues_length
      (allProtos (parseNem12Structure (parseCSV b)) (parseNem12Structure (parseCSV a)) n1 n2)
    rw [← hlen] at h
    exact h
  · refine ⟨(structureProtos (parseNem12Structure (parseCSV b))
        (parseNem12Structure (parseCSV a))).length,
      (missingProtos (toEntries (parseNem12Structure (parseCSV b)).intervals)
        (toEntries (parseNem12Structure (parseCSV a)).intervals)).length,
      (extraProtos (toEntries (parseNem12Structure (parseCSV b)).intervals)
        (toEntries (parseNem12Structure (parseCSV a)).intervals)).length,
      (mismatchProtos (toEntries (parseNem12Structure (parseCSV b)).intervals)
        (toEntries (parseNem12Structure (parseCSV a)).intervals) n1 n2).length, ?_⟩
    have h := numberIssues_map_field
      (allProtos (parseNem12Structure (parseCSV b)) (parseNem12Structure (parseCSV a)) n1 n2)
      (fun p => p.issue_type)
    have h2 : (parseAndCompareNem12 b a n1 n2).map (fun i => i.issue_type) =
        (allProtos (parseNem12Structure (parseCSV b))
          (parseNem12Structure (parseCSV a)) n1 n2).map (fun p => p.issue_type) := h
    rw [h2]
    unfold allProtos
    rw [List.map_append, List.map_append, List.map_append]
    rw [map_eq_replicate_of_forall (fun p hp => mem_structureProtos_type hp),
      map_eq_replicate_of_forall (fun p hp => mem_missingProtos_type hp),
      map_eq_replicate_of_forall (fun p hp => mem_extraProtos_type hp),
      map_eq_replicate_of_forall (fun p hp => mem_mismatchProtos_type hp)]
  · have h := compare_filter_map (parseNem12Structure (parseCSV b))
      (parseNem12Structure (parseCSV a)) n1 n2
      (fun p => decide (p.issue_type = "STRUCTURE")) (fun p => p.details)
    rw [allProtos_filter_structure, structureProtos_map_details] at h
    exact h

/-- Claim C6: for each side independently, a STRUCTURE issue is emitted
exactly when that side's first record type is not 100; the issue names the
side and its actual first record type; the sides never influence each
other, so zero, one or two STRUCTURE issues result. -/
theorem c6_structure_checks (b a n1 n2 : String) :
    ((parseAndCompareNem12 b a n1 n2).filter
        (fun i => decide (i.issue_type = "STRUCTURE"))).map (fun i => i.details) =
    (if (parseNem12Structure (parseCSV b)).firstRecordType ≠ "100" then
      ["BEFORE first record is " ++ (parseNem12Structure (parseCSV b)).firstRecordType]
     else []) ++
    (if (parseNem12Structure (parseCSV a)).firstRecordType ≠ "100" then
      ["AFTER first record is " ++ (parseNem12Structure (parseCSV a)).firstRecordType]
     else []) := by
  have h := compare_filter_map (parseNem12Structure (parseCSV b))
    (parseNem12Structure (parseCSV a)) n1 n2
    (fun p => decide (p.issue_type = "STRUCTURE")) (fun p => p.details)
  rw [allProtos_filter_structure, structureProtos_map_details] at h
  exact h

theorem lastEntryWith_spec {es : List Entry} {k : IntervalKey} {ae : Entry}
    (h : lastEntryWith es k = some ae) : ae ∈ es ∧ ae.keyStr = k := by
  unfold lastEntryWith at h
  constructor
  · exact List.mem_reverse.mp (List.mem_of_find?_eq_some h)
  · have hp := List.find?_some h
    simp only [decide_eq_true_eq] at hp
    exact hp

theorem missingProtos_self (B : List Entry) : missingProtos B B = [] := by
  unfold missingProtos
  rw [List.filter_eq_nil_iff.mpr, List.map_nil]
  intro e he
  simp only [decide_eq_true_eq, Decidable.not_not]
  exact List.mem_map_of_mem (fun e => e.keyStr) he

theorem extraProtos_self (B : List Entry) : extraProtos B B = [] := by
  unfold extraProtos
  rw [List.filter_eq_nil_iff.mpr, List.map_nil]
  intro e he
  simp only [decide_eq_true_eq, Decidable.not_not]
  exact List.mem_map_of_mem (fun e => e.keyStr) he

theorem mismatchProtos_self (B : List Entry) (n1 n2 : String)
    (hcons : ∀ e1 ∈ B, ∀ e2 ∈ B, e1.keyStr = e2.keyStr →
      e1.interval.value = e2.interval.value) :
    mismatchProtos B B n1 n2 = [] := by
  unfold mismatchProtos
  rw [List.filterMap_eq_nil_iff]
  intro e he
  by_cases hmem : e.keyStr ∈ keyStrs B
  · rw [if_pos hmem]
    cases hle : lastEntryWith B e.keyStr with
    | none => rfl
    | some ae =>
        rcases lastEntryWith_spec hle with ⟨hmemae, hkey⟩
        have hval := hcons e he ae hmemae hkey.symm
        dsimp only
        rw [if_neg (by simpa using hval)]
  · rw [if_neg hmem]

/-- Claim C2 (counterexample): a content whose first record type is 200,
compared against itself, yields two STRUCTURE issues and batch exit code
1, not an empty issue list and exit code 0. -/
theorem c2_counterexample :
    (parseAndCompareNem12 c2CtrContent c2CtrContent "same.csv" "same.csv").map
      (fun i => i.issue_type) = ["STRUCTURE", "STRUCTURE"] ∧
    parseAndCompareNem12 c2CtrContent c2CtrContent "same.csv" "same.csv" ≠ [] ∧
    batchExitCode
      (parseAndCompareNem12 c2CtrContent c2CtrContent "same.csv" "same.csv") = 1 := by
  refine ⟨by decide, by decide, by decide⟩

/-- Claim C2 (amended): comparing a content against itself yields an empty
issue list and batch exit code 0, provided the parsed first record type is
100 and any two stored entries with the same logical key carry the same
reading value; without these provisos self-comparison can emit STRUCTURE
or VALUE_MISMATCH issues. -/
theorem c2_self_comparison (c n1 n2 : String)
    (h100 : (parseNem12Structure (parseCSV c)).firstRecordType = "100")
    (hcons : ∀ e1 ∈ toEntries (parseNem12Structure (parseCSV c)).intervals,
      ∀ e2 ∈ toEntries (parseNem12Structure (parseCSV c)).intervals,
        e1.keyStr = e2.keyStr → e1.interval.value = e2.interval.value) :
    parseAndCompareNem12 c c n1 n2 = [] ∧
    batchExitCode (parseAndCompareNem12 c c n1 n2) = 0 := by
  have hprotos : allProtos (parseNem12Structure (parseCSV c))
      (parseNem12Structure (parseCSV c)) n1 n2 = [] := by
    unfold allProtos structureProtos
    rw [missingProtos_self, extraProtos_self, mismatchProtos_self _ n1 n2 hcons]
    simp [h100]
  have hempty : parseAndCompareNem12 c c n1 n2 = [] := by
    show compareDatasets (parseNem12Structure (parseCSV c))
      (parseNem12Structure (parseCSV c)) n1 n2 = []
    unfold compareDatasets
    rw [hprotos]
    rfl
  exact ⟨hempty, by rw [hempty]; rfl⟩

/-- Claim C2 (witness): a concrete well-formed content for which
self-comparison provably yields no issues and exit code 0. -/
theorem c2_self_comparison_witness :
    parseAndCompareNem12 c2WitnessContent c2WitnessContent "w.csv" "w.csv" = [] ∧
    batchExitCode
      (parseAndCompareNem12 c2WitnessContent c2WitnessContent "w.csv" "w.csv") = 0 :=
  c2_self_comparison c2WitnessContent "w.csv" "w.csv" (by decide) (by decide)

/-- Claim C1 (code evaluation): on a file in which the logical key (NMI1,
E1, 20250101, 0) occurs twice with readings 5.0 then 6.0, the built
dataset stores two entries for that one logical key, not a single
first-wins reading; the reference-keyed Map never detects the duplicate. -/
theorem c1_duplicate_key_entries :
    ((parseNem12Structure (parseCSV c1Content)).intervals).map
      (fun e => (valueKey e.1, e.2.value)) =
    [(⟨"NMI1", "E1", "20250101", 0⟩, "5.0"),
     (⟨"NMI1", "E1", "20250101", 0⟩, "6.0")] ∧
    ((parseNem12Structure (parseCSV c1Content)).intervals).map
      (fun e => (valueKey e.1, e.2.value)) ≠
    [(⟨"NMI1", "E1", "20250101", 0⟩, "5.0")] := by
  refine ⟨by decide, by decide⟩

theorem toEntries_keyStr {m : IntervalMap} {e : Entry}
    (h : e ∈ toEntries m) : e.keyStr = valueKey e.key := by
  unfold toEntries at h
  rcases List.mem_map.mp h with ⟨x, _, hx⟩
  rw [← hx]

theorem keyStr_mem_iff {m1 m2 : IntervalMap} {e : Entry}
    (he : e ∈ toEntries m1) :
    e.keyStr ∈ keyStrs (toEntries m2) ↔
    ∃ f ∈ toEntries m2, f.key.nmi = e.key.nmi ∧ f.key.channel = e.key.channel ∧
      f.key.date = e.key.date ∧ f.key.intervalIndex = e.key.intervalIndex := by
  unfold keyStrs
  rw [List.mem_map]
  constructor
  · rintro ⟨f, hf, hkey⟩
    refine ⟨f, hf, ?_⟩
    rw [toEntries_keyStr hf, toEntries_keyStr he] at hkey
    simpa [valueKey, IntervalKey.mk.injEq] using hkey
  · rintro ⟨f, hf, h1, h2, h3, h4⟩
    refine ⟨f, hf, ?_⟩
    rw [toEntries_keyStr hf, toEntries_keyStr he]
    simp [valueKey, IntervalKey.mk.injEq, h1, h2, h3, h4]

theorem mem_mismatchProtos_inv {B A : List Entry} {bn an : String} {p : ProtoIssue}
    (h : p ∈ mismatchProtos B A bn an) :
    ∃ e ∈ B, ∃ ae, lastEntryWith A e.keyStr = some ae ∧
      e.keyStr ∈ keyStrs A ∧ e.interval.value ≠ ae.interval.value ∧
      p = mismatchProto e ae bn an := by
  unfold mismatchProtos at h
  rcases List.mem_filterMap.mp h with ⟨e, hmem, he⟩
  by_cases hk : e.keyStr ∈ keyStrs A
  · rw [if_pos hk] at he
    cases hle : lastEntryWith A e.keyStr with
    | none => rw [hle] at he; simp at he
    | some ae =>
        rw [hle] at he
        dsimp only at he
        by_cases hv : e.interval.value ≠ ae.interval.value
        · rw [if_pos hv] at he
          injection he with he
          exact ⟨e, hmem, ae, hle, hk, hv, he.symm⟩
        · rw [if_neg hv] at he
          exact absurd he (by simp)
  · rw [if_neg hk] at he
    exact absurd he (by simp)

theorem mem_allProtos_mismatch {bd ad : Dataset} {bn an : String} {p : ProtoIssue}
    (h : p ∈ allProtos bd ad bn an) (ht : p.issue_type = "VALUE_MISMATCH") :
    p ∈ mismatchProtos (toEntries bd.intervals) (toEntries ad.intervals) bn an := by
  unfold allProtos at h
  rcases List.mem_append.mp h with h1 | h1
  · rcases List.mem_append.mp h1 with h2 | h2
    · rcases List.mem_append.mp h2 with h3 | h3
      · rw [mem_structureProtos_type h3] at ht; exact absurd ht (by decide)
      · rw [mem_missingProtos_type h3] at ht; exact absurd ht (by decide)
    · rw [mem_extraProtos_type h2] at ht; exact absurd ht (by decide)
  · exact h1

/-- Claim C4 (counterexample): two interval keys whose NMI differs only in
letter case are not treated as the same key: the comparison reports a
MISSING issue for the lower-case key and an EXTRA issue for the upper-case
key even though the readings agree. -/
theorem c4_counterexample :
    (parseAndCompareNem12 c4BeforeContent c4AfterContent "b.csv" "a.csv").map
      (fun i => (i.issue_type, i.nmi)) =
    [("MISSING", "nmi1"), ("EXTRA", "NMI1")] := by
  decide

/-- Claim C4 (amended): the MISSING, EXTRA and VALUE_MISMATCH checks all
match interval keys by exact, case-sensitive value equality of the four
components (nmi, channel, date, intervalIndex): a MISSING or EXTRA issue
is emitted exactly for the entries with no component-equal counterpart on
the other side, and every VALUE_MISMATCH issue arises from a
component-equal pair of entries. -/
theorem c4_exact_key_matching (b a n1 n2 : String) :
    (((parseAndCompareNem12 b a n1 n2).filter
        (fun i => decide (i.issue_type = "MISSING"))).map
          (fun i => (i.nmi, i.channel, i.date)) =
      ((toEntries (parseNem12Structure (parseCSV b)).intervals).filter (fun e =>
        decide (¬ ∃ f ∈ toEntries (parseNem12Structure (parseCSV a)).intervals,
          f.key.nmi = e.key.nmi ∧ f.key.channel = e.key.channel ∧
          f.key.date = e.key.date ∧
          f.key.intervalIndex = e.key.intervalIndex))).map
        (fun e => (e.key.nmi, e.key.channel, e.key.date))) ∧
    (((parseAndCompareNem12 b a n1 n2).filter
        (fun i => decide (i.issue_type = "EXTRA"))).map
          (fun i => (i.nmi, i.channel, i.date)) =
      ((toEntries (parseNem12Structure (parseCSV a)).intervals).filter (fun e =>
        decide (¬ ∃ f ∈ toEntries (parseNem12Structure (parseCSV b)).intervals,
          f.key.nmi = e.key.nmi ∧ f.key.channel = e.key.channel ∧
          f.key.date = e.key.date ∧
          f.key.intervalIndex = e.key.intervalIndex))).map
        (fun e => (e.key.nmi, e.key.channel, e.key.date))) ∧
    (∀ i ∈ parseAndCompareNem12 b a n1 n2, i.issue_type = "VALUE_MISMATCH" →
      ∃ e ∈ toEntries (parseNem12Structure (parseCSV b)).intervals,
        ∃ f ∈ toEntries (parseNem12Structure (parseCSV a)).intervals,
          e.key.nmi = f.key.nmi ∧ e.key.channel = f.key.channel ∧
          e.key.date = f.key.date ∧ e.key.intervalIndex = f.key.intervalIndex ∧
          i.nmi = e.key.nmi ∧ i.before_value = e.interval.value ∧
          i.after_value = f.interval.value) := by
  refine ⟨?_, ?_, ?_⟩
  · have h := compare_filter_map (parseNem12Structure (parseCSV b))
      (parseNem12Structure (parseCSV a)) n1 n2
      (fun p => decide (p.issue_type = "MISSING"))
      (fun p => (p.nmi, p.channel, p.date))
    rw [allProtos_filter_missing] at h
    unfold missingProtos at h
    rw [List.map_map] at h
    have hfilter : ((toEntries (parseNem12Structure (parseCSV b)).intervals).filter
        (fun e => decide (e.keyStr ∉
          keyStrs (toEntries (parseNem12Structure (parseCSV a)).intervals)))) =
        ((toEntries (parseNem12Structure (parseCSV b)).intervals).filter (fun e =>
          decide (¬ ∃ f ∈ toEntries (parseNem12Structure (parseCSV a)).intervals,
            f.key.nmi = e.key.nmi ∧ f.key.channel = e.key.channel ∧
            f.key.date = e.key.date ∧
            f.key.intervalIndex = e.key.intervalIndex))) := by
      apply List.filter_congr
      intro e he
      rw [decide_eq_decide]
      exact not_congr (keyStr_mem_iff he)
    rw [hfilter] at h
    exact h
  · have h := compare_filter_map (parseNem12Structure (parseCSV b))
      (parseNem12Structure (parseCSV a)) n1 n2
      (fun p => decide (p.issue_type = "EXTRA"))
      (fun p => (p.nmi, p.channel, p.date))
    rw [allProtos_filter_extra] at h
    unfold extraProtos at h
    rw [List.map_map] at h
    have hfilter : ((toEntries (parseNem12Structure (parseCSV a)).intervals).filter
        (fun e => decide (e.keyStr ∉
          keyStrs (toEntries (parseNem12Structure (parseCSV b)).intervals)))) =
        ((toEntries (parseNem12Structure (parseCSV a)).intervals).filter (fun e =>
          decide (¬ ∃ f ∈ toEntries (parseNem12Structure (parseCSV b)).intervals,
            f.key.nmi = e.key.nmi ∧ f.key.channel = e.key.channel ∧
            f.key.date = e.key.date ∧
            f.key.intervalIndex = e.key.intervalIndex))) := by
      apply List.filter_congr
      intro e he
      rw [decide_eq_decide]
      exact not_congr (keyStr_mem_iff he)
    rw [hfilter] at h
    exact h
  · intro i hi ht
    have hmem : stripSr i ∈ allProtos (parseNem12Structure (parseCSV b))
        (parseNem12Structure (parseCSV a)) n1 n2 := mem_numberIssues hi
    have hmm := mem_allProtos_mismatch hmem ht
    rcases mem_mismatchProtos_inv hmm with ⟨e, heB, ae, hle, _, _, hp⟩
    rcases lastEntryWith_spec hle with ⟨haeA, hkey⟩
    have hcomp : ae.key.nmi = e.key.nmi ∧ ae.key.channel = e.key.channel ∧
        ae.key.date = e.key.date ∧ ae.key.intervalIndex = e.key.intervalIndex := by
      have h1 := toEntries_keyStr haeA
      have h2 := toEntries_keyStr heB
      rw [h1, h2] at hkey
      simpa [valueKey, IntervalKey.mk.injEq] using hkey
    refine ⟨e, heB, ae, haeA, hcomp.1.symm, hcomp.2.1.symm, hcomp.2.2.1.symm,
      hcomp.2.2.2.symm, ?_, ?_, ?_⟩
    · have : i.nmi = (stripSr i).nmi := rfl
      rw [this, hp]; rfl
    · have : i.before_value = (stripSr i).before_value := rfl
      rw [this, hp]; rfl
    · have : i.after_value = (stripSr i).after_value := rfl
      rw [this, hp]; rfl

/-- Claim C4 (witness): on concrete contents sharing one exactly-equal key
with differing readings and disagreeing on a second key, the amended
characterization holds with non-trivial issue lists. -/
theorem c4_exact_key_matching_witness :
    (((parseAndCompareNem12 c3WitnessBefore c3WitnessAfter "b.csv" "a.csv").filter
        (fun i => decide (i.issue_type = "MISSING"))).map
          (fun i => (i.nmi, i.channel, i.date)) =
      ((toEntries (parseNem12Structure (parseCSV c3WitnessBefore)).intervals).filter
        (fun e => decide (¬ ∃ f ∈
          toEntries (parseNem12Structure (parseCSV c3WitnessAfter)).intervals,
          f.key.nmi = e.key.nmi ∧ f.key.channel = e.key.channel ∧
          f.key.date = e.key.date ∧
          f.key.intervalIndex = e.key.intervalIndex))).map
        (fun e => (e.key.nmi, e.key.channel, e.key.date))) ∧
    (((parseAndCompareNem12 c3WitnessBefore c3WitnessAfter "b.csv" "a.csv").filter
        (fun i => decide (i.issue_type = "EXTRA"))).map
          (fun i => (i.nmi, i.channel, i.date)) =
      ((toEntries (parseNem12Structure (parseCSV c3WitnessAfter)).intervals).filter
        (fun e => decide (¬ ∃ f ∈
          toEntries (parseNem12Structure (parseCSV c3WitnessBefore)).intervals,
          f.key.nmi = e.key.nmi ∧ f.key.channel = e.key.channel ∧
          f.key.date = e.key.date ∧
          f.key.intervalIndex = e.key.intervalIndex))).map
        (fun e => (e.key.nmi, e.key.channel, e.key.date))) ∧
    (∀ i ∈ parseAndCompareNem12 c3WitnessBefore c3WitnessAfter "b.csv" "a.csv",
      i.issue_type = "VALUE_MISMATCH" →
      ∃ e ∈ toEntries (parseNem12Structure (parseCSV c3WitnessBefore)).intervals,
        ∃ f ∈ toEntries (parseNem12Structure (parseCSV c3WitnessAfter)).intervals,
          e.key.nmi = f.key.nmi ∧ e.key.channel = f.key.channel ∧
          e.key.date = f.key.date ∧ e.key.intervalIndex = f.key.intervalIndex ∧
          i.nmi = e.key.nmi ∧ i.before_value = e.interval.value ∧
          i.after_value = f.interval.value) :=
  c4_exact_key_matching c3WitnessBefore c3WitnessAfter "b.csv" "a.csv"

theorem lastEntryWith_nodup {B : List Entry} {e : Entry}
    (hB : (keyStrs B).Nodup) (heB : e ∈ B) :
    lastEntryWith B e.keyStr = some e := by
  have hsome : (lastEntryWith B e.keyStr).isSome := by
    unfold lastEntryWith
    exact List.find?_isSome.mpr ⟨e, List.mem_reverse.mpr heB, by simp⟩
  rcases Option.isSome_iff_exists.mp hsome with ⟨f, hf⟩
  rcases lastEntryWith_spec hf with ⟨hfB, hfk⟩
  have : f = e := List.inj_on_of_nodup_map hB hfB heB hfk
  rw [hf, this]

theorem mem_mismatchProtos_intro {B A : List Entry} {e ae : Entry}
    (heB : e ∈ B) (hk : e.keyStr ∈ keyStrs A)
    (hle : lastEntryWith A e.keyStr = some ae)
    (hv : e.interval.value ≠ ae.interval.value) (bn an : String) :
    mismatchProto e ae bn an ∈ mismatchProtos B A bn an := by
  unfold mismatchProtos
  apply List.mem_filterMap.mpr
  refine ⟨e, heB, ?_⟩
  rw [if_pos hk, hle]
  dsimp only
  rw [if_pos hv]

theorem mismatchProtos_mem_allProtos (bd ad : Dataset) {bn an : String}
    {p : ProtoIssue}
    (h : p ∈ mismatchProtos (toEntries bd.intervals) (toEntries ad.intervals) bn an) :
    p ∈ allProtos bd ad bn an := by
  unfold allProtos
  exact List.mem_append.mpr (Or.inr h)

/-- One direction of the swap symmetry for VALUE_MISMATCH issues, generic
in the two contents: a mismatch issue of the comparison of b against a
yields a mismatch issue with swapped values in the comparison of a against
b, provided the key strings of the first content are distinct. -/
theorem mismatch_swap_dir (b a n1 n2 : String)
    (hB : (keyStrs (toEntries (parseNem12Structure (parseCSV b)).intervals)).Nodup)
    (n c d u v : String)
    (hex : ∃ i ∈ parseAndCompareNem12 b a n1 n2,
      i.issue_type = "VALUE_MISMATCH" ∧ i.nmi = n ∧ i.channel = c ∧
      i.date = d ∧ i.before_value = u ∧ i.after_value = v) :
    ∃ j ∈ parseAndCompareNem12 a b n2 n1,
      j.issue_type = "VALUE_MISMATCH" ∧ j.nmi = n ∧ j.channel = c ∧
      j.date = d ∧ j.before_value = v ∧ j.after_value = u := by
  rcases hex with ⟨i, hi, ht, hn, hc, hd, hu, hv⟩
  have hmem : stripSr i ∈ allProtos (parseNem12Structure (parseCSV b))
      (parseNem12Structure (parseCSV a)) n1 n2 := mem_numberIssues hi
  have hmm := mem_allProtos_mismatch hmem ht
  rcases mem_mismatchProtos_inv hmm with ⟨e, heB, ae, hle, _, hne, hp⟩
  rcases lastEntryWith_spec hle with ⟨haeA, hkey⟩
  have hkB : ae.keyStr ∈ keyStrs (toEntries (parseNem12Structure (parseCSV b)).intervals) := by
    rw [hkey]
    exact List.mem_map_of_mem (fun x => x.keyStr) heB
  have hleB : lastEntryWith (toEntries (parseNem12Structure (parseCSV b)).intervals)
      ae.keyStr = some e := by
    rw [hkey]
    exact lastEntryWith_nodup hB heB
  have hvne : ae.interval.value ≠ e.interval.value := fun hcontr => hne hcontr.symm
  have hq := mem_mismatchProtos_intro haeA hkB hleB hvne n2 n1
  have hq2 := mismatchProtos_mem_allProtos
    (parseNem12Structure (parseCSV a)) (parseNem12Structure (parseCSV b)) hq
  rcases mem_numberIssues_of_mem hq2 with ⟨j, hj, hjstrip⟩
  have hcompkey : ae.key.nmi = e.key.nmi ∧ ae.key.channel = e.key.channel ∧
      ae.key.date = e.key.date ∧ ae.key.intervalIndex = e.key.intervalIndex := by
    have h1 := toEntries_keyStr haeA
    have h2 := toEntries_keyStr heB
    rw [h1, h2] at hkey
    simpa [valueKey, IntervalKey.mk.injEq] using hkey
  refine ⟨j, hj, ?_, ?_, ?_, ?_, ?_, ?_⟩
  · have : j.issue_type = (stripSr j).issue_type := rfl
    rw [this, hjstrip]; rfl
  · have hj2 : j.nmi = (stripSr j).nmi := rfl
    have hi2 : i.nmi = (stripSr i).nmi := rfl
    rw [hj2, hjstrip]
    show ae.key.nmi = n
    rw [hcompkey.1, ← hn, hi2, hp]; rfl
  · have hj2 : j.channel = (stripSr j).channel := rfl
    have hi2 : i.channel = (stripSr i).channel := rfl
    rw [hj2, hjstrip]
    show ae.key.channel = c
    rw [hcompkey.2.1, ← hc, hi2, hp]; rfl
  · have hj2 : j.date = (stripSr j).date := rfl
    have hi2 : i.date = (stripSr i).date := rfl
    rw [hj2, hjstrip]
    show ae.key.date = d
    rw [hcompkey.2.2.1, ← hd, hi2, hp]; rfl
  · have hj2 : j.before_value = (stripSr j).before_value := rfl
    have hi2 : i.after_value = (stripSr i).after_value := rfl
    rw [hj2, hjstrip]
    show ae.interval.value = v
    rw [← hv, hi2, hp]; rfl
  · have hj2 : j.after_value = (stripSr j).after_value := rfl
    have hi2 : i.before_value = (stripSr i).before_value := rfl
    rw [hj2, hjstrip]
    show e.interval.value = u
    rw [← hu, hi2, hp]; rfl

/-- Claim C3 (counterexample): with the interval key duplicated inside the
BEFORE file at readings 1.0 and 3.0 and the AFTER file carrying 2.0, the
forward comparison emits two VALUE_MISMATCH issues but the swapped
comparison emits only one, so the mismatch (1.0, 2.0) has no swapped
counterpart (2.0, 1.0). -/
theorem c3_counterexample :
    ((parseAndCompareNem12 c3BeforeContent c3AfterContent "b.csv" "a.csv").filter
      (fun i => decide (i.issue_type = "VALUE_MISMATCH"))).map
        (fun i => (i.before_value, i.after_value)) =
      [("1.0", "2.0"), ("3.0", "2.0")] ∧
    ((parseAndCompareNem12 c3AfterContent c3BeforeContent "a.csv" "b.csv").filter
      (fun i => decide (i.issue_type = "VALUE_MISMATCH"))).map
        (fun i => (i.before_value, i.after_value)) =
      [("2.0", "3.0")] := by
  refine ⟨by decide, by decide⟩

/-- Claim C3 (amended): swapping the BEFORE and AFTER roles turns the
MISSING issues into the EXTRA issues for the same keys, locations and
values and vice versa, unconditionally; and, provided each side's stored
key strings are pairwise distinct, a VALUE_MISMATCH issue with given key
components and values exists in one direction exactly when the
value-swapped issue exists in the other. -/
theorem c3_swap_symmetry (b a n1 n2 : String) :
    (((parseAndCompareNem12 a b n2 n1).filter
        (fun i => decide (i.issue_type = "EXTRA"))).map
          (fun i => (i.nmi, i.channel, i.date, i.after_cell_location, i.after_value)) =
      ((parseAndCompareNem12 b a n1 n2).filter
        (fun i => decide (i.issue_type = "MISSING"))).map
          (fun i => (i.nmi, i.channel, i.date, i.after_cell_location, i.before_value))) ∧
    (((parseAndCompareNem12 a b n2 n1).filter
        (fun i => decide (i.issue_type = "MISSING"))).map
          (fun i => (i.nmi, i.channel, i.date, i.after_cell_location, i.before_value)) =
      ((parseAndCompareNem12 b a n1 n2).filter
        (fun i => decide (i.issue_type = "EXTRA"))).map
          (fun i => (i.nmi, i.channel, i.date, i.after_cell_location, i.after_value))) ∧
    ((keyStrs (toEntries (parseNem12Structure (parseCSV b)).intervals)).Nodup →
     (keyStrs (toEntries (parseNem12Structure (parseCSV a)).intervals)).Nodup →
      ∀ n c d u v : String,
        (∃ i ∈ parseAndCompareNem12 b a n1 n2,
          i.issue_type = "VALUE_MISMATCH" ∧ i.nmi = n ∧ i.channel = c ∧
          i.date = d ∧ i.before_value = u ∧ i.after_value = v) ↔
        (∃ j ∈ parseAndCompareNem12 a b n2 n1,
          j.issue_type = "VALUE_MISMATCH" ∧ j.nmi = n ∧ j.channel = c ∧
          j.date = d ∧ j.before_value = v ∧ j.after_value = u)) := by
  refine ⟨?_, ?_, ?_⟩
  · have h1 := compare_filter_map (parseNem12Structure (parseCSV a))
      (parseNem12Structure (parseCSV b)) n2 n1
      (fun p => decide (p.issue_type = "EXTRA"))
      (fun p => (p.nmi, p.channel, p.date, p.after_cell_location, p.after_value))
    rw [allProtos_filter_extra] at h1
    have h2 := compare_filter_map (parseNem12Structure (parseCSV b))
      (parseNem12Structure (parseCSV a)) n1 n2
      (fun p => decide (p.issue_type = "MISSING"))
      (fun p => (p.nmi, p.channel, p.date, p.after_cell_location, p.before_value))
    rw [allProtos_filter_missing] at h2
    refine h1.trans (Eq.trans ?_ h2.symm)
    unfold extraProtos missingProtos
    rw [List.map_map, List.map_map]
    rfl
  · have h1 := compare_filter_map (parseNem12Structure (parseCSV a))
      (parseNem12Structure (parseCSV b)) n2 n1
      (fun p => decide (p.issue_type = "MISSING"))
      (fun p => (p.nmi, p.channel, p.date, p.after_cell_location, p.before_value))
    rw [allProtos_filter_missing] at h1
    have h2 := compare_filter_map (parseNem12Structure (parseCSV b))
      (parseNem12Structure (parseCSV a)) n1 n2
      (fun p => decide (p.issue_type = "EXTRA"))
      (fun p => (p.nmi, p.channel, p.date, p.after_cell_location, p.after_value))
    rw [allProtos_filter_extra] at h2
    refine h1.trans (Eq.trans ?_ h2.symm)
    unfold extraProtos missingProtos
    rw [List.map_map, List.map_map]
    rfl
  · intro hB hA n c d u v
    constructor
    · exact mismatch_swap_dir b a n1 n2 hB n c d u v
    · intro hex
      have h := mismatch_swap_dir a b n2 n1 hA n c d v u hex
      exact h

/-- Claim C3 (witness): the amended swap symmetry at concrete contents
with duplicate-free keys, one shared mismatching key and one key present
only in the before side, the distinctness hypotheses of the mismatch half
discharged concretely. -/
theorem c3_swap_symmetry_witness :
    (((parseAndCompareNem12 c3WitnessAfter c3WitnessBefore "a.csv" "b.csv").filter
        (fun i => decide (i.issue_type = "EXTRA"))).map
          (fun i => (i.nmi, i.channel, i.date, i.after_cell_location, i.after_value)) =
      ((parseAndCompareNem12 c3WitnessBefore c3WitnessAfter "b.csv" "a.csv").filter
        (fun i => decide (i.issue_type = "MISSING"))).map
          (fun i => (i.nmi, i.channel, i.date, i.after_cell_location, i.before_value))) ∧
    (((parseAndCompareNem12 c3WitnessAfter c3WitnessBefore "a.csv" "b.csv").filter
        (fun i => decide (i.issue_type = "MISSING"))).map
          (fun i => (i.nmi, i.channel, i.date, i.after_cell_location, i.before_value)) =
      ((parseAndCompareNem12 c3WitnessBefore c3WitnessAfter "b.csv" "a.csv").filter
        (fun i => decide (i.issue_type = "EXTRA"))).map
          (fun i => (i.nmi, i.channel, i.date, i.after_cell_location, i.after_value))) ∧
    (∀ n c d u v : String,
      (∃ i ∈ parseAndCompareNem12 c3WitnessBefore c3WitnessAfter "b.csv" "a.csv",
        i.issue_type = "VALUE_MISMATCH" ∧ i.nmi = n ∧ i.channel = c ∧
        i.date = d ∧ i.before_value = u ∧ i.after_value = v) ↔
      (∃ j ∈ parseAndCompareNem12 c3WitnessAfter c3WitnessBefore "a.csv" "b.csv",
        j.issue_type = "VALUE_MISMATCH" ∧ j.nmi = n ∧ j.channel = c ∧
        j.date = d ∧ j.before_value = v ∧ j.after_value = u)) :=
  ⟨(c3_swap_symmetry c3WitnessBefore c3WitnessAfter "b.csv" "a.csv").1,
   (c3_swap_symmetry c3WitnessBefore c3WitnessAfter "b.csv" "a.csv").2.1,
   (c3_swap_symmetry c3WitnessBefore c3WitnessAfter "b.csv" "a.csv").2.2
     (by decide) (by decide)⟩

/-- The selection loop applied to the four candidates agrees with the
spec-side first-candidate-with-maximal-count rule, for any count
function. -/
theorem pickBestDelim_spec (cnt : Char → Nat) :
    pickBestDelim cnt ',' (cnt ',') ['|', ';', '\t'] =
    (candidateDelims.find? (fun c =>
      candidateDelims.all (fun c2 => cnt c2 ≤ cnt c))).getD ',' := by
  simp only [pickBestDelim, candidateDelims]
  by_cases h1 : cnt ',' < cnt '|'
  · rw [if_pos h1]
    by_cases h2 : cnt '|' < cnt ';'
    · rw [if_pos h2]
      by_cases h3 : cnt ';' < cnt '\t'
      · rw [if_pos h3]
        rw [List.find?_cons_of_neg _ (by simp [List.all_cons]; omega),
          List.find?_cons_of_neg _ (by simp [List.all_cons]; omega),
          List.find?_cons_of_neg _ (by simp [List.all_cons]; omega),
          List.find?_cons_of_pos _ (by simp [List.all_cons]; omega)]
        rfl
      · rw [if_neg h3]
        rw [List.find?_cons_of_neg _ (by simp [List.all_cons]; omega),
          List.find?_cons_of_neg _ (by simp [List.all_cons]; omega),
          List.find?_cons_of_pos _ (by simp [List.all_cons]; omega)]
        rfl
    · rw [if_neg h2]
      by_cases h3 : cnt '|' < cnt '\t'
      · rw [if_pos h3]
        rw [List.find?_cons_of_neg _ (by simp [List.all_cons]; omega),
          List.find?_cons_of_neg _ (by simp [List.all_cons]; omega),
          List.find?_cons_of_neg _ (by simp [List.all_cons]; omega),
          List.find?_cons_of_pos _ (by simp [List.all_cons]; omega)]
        rfl
      · rw [if_neg h3]
        rw [List.find?_cons_of_neg _ (by simp [List.all_cons]; omega),
          List.find?_cons_of_pos _ (by simp [List.all_cons]; omega)]
        rfl
  · rw [if_neg h1]
    by_cases h2 : cnt ',' < cnt ';'
    · rw [if_pos h2]
      by_cases h3 : cnt ';' < cnt '\t'
      · rw [if_pos h3]
        rw [List.find?_cons_of_neg _ (by simp [List.all_cons]; omega),
          List.find?_cons_of_neg _ (by simp [List.all_cons]; omega),
          List.find?_cons_of_neg _ (by simp [List.all_cons]; omega),
          List.find?_cons_of_pos _ (by simp [List.all_cons]; omega)]
        rfl
      · rw [if_neg h3]
        rw [List.find?_cons_of_neg _ (by simp [List.all_cons]; omega),
          List.find?_cons_of_neg _ (by simp [List.all_cons]; omega),
          List.find?_cons_of_pos _ (by simp [List.all_cons]; omega)]
        rfl
    · rw [if_neg h2]
      by_cases h3 : cnt ',' < cnt '\t'
      · rw [if_pos h3]
        rw [List.find?_cons_of_neg _ (by simp [List.all_cons]; omega),
          List.find?_cons_of_neg _ (by simp [List.all_cons]; omega),
          List.find?_cons_of_neg _ (by simp [List.all_cons]; omega),
          List.find?_cons_of_pos _ (by simp [List.all_cons]; omega)]
        rfl
      · rw [if_neg h3]
        rw [List.find?_cons_of_pos _ (by simp [List.all_cons]; omega)]
        rfl

/-- Claim C8: the tokenizer detects the delimiter once, from the first
non-blank line, choosing the candidate with the strictly highest
occurrence count in the order comma, pipe, semicolon, tab (ties go to the
earlier candidate, comma first, and with no non-blank line the comma
stays), and the selected delimiter is applied to every non-blank row. -/
theorem c8_delimiter_detection (content : String) :
    (∀ line, (splitLines content).find? (fun l => decide (jsTrim l ≠ "")) = some line →
      detectDelimiter (splitLines content) = specBestDelimiter line) ∧
    ((splitLines content).find? (fun l => decide (jsTrim l ≠ "")) = none →
      detectDelimiter (splitLines content) = ',') ∧
    parseCSV content =
      ((splitLines content).filter (fun l => decide (jsTrim l ≠ ""))).map
        (splitRow (detectDelimiter (splitLines content))) := by
  refine ⟨?_, ?_, rfl⟩
  · intro line h
    unfold detectDelimiter
    rw [h]
    exact pickBestDelim_spec (fun d => countChar d line)
  · intro h
    unfold detectDelimiter
    rw [h]

/-- Claim C8 (witness): the detection applied to a concrete pipe-delimited
content agrees with the spec-side selection on its first non-blank
line. -/
theorem c8_delimiter_detection_witness :
    detectDelimiter (splitLines "a|b|c\nx|y") = specBestDelimiter "a|b|c" :=
  (c8_delimiter_detection "a|b|c\nx|y").1 "a|b|c" (by decide)

theorem escapeCSVField_clean {s : String} (h : cleanField s = true) :
    escapeCSVField s = s := by
  unfold cleanField at h
  have hb : (containsChar s ',' || containsChar s '\n' || containsChar s '"') = false := by
    simpa using h
  unfold escapeCSVField
  rw [if_neg (by simp [hb])]

/-- Claim C7 (counterexample): the exported data row of a real MISSING
issue differs from the row the spec describes: the location field, which
the program itself fills with a comma, is joined unescaped, and only the
details column is escaped. -/
theorem c7_counterexample :
    (parseAndCompareNem12 c7BeforeContent c7AfterContent "b.csv" "a.csv").map
      csvDetailRow ≠
    (parseAndCompareNem12 c7BeforeContent c7AfterContent "b.csv" "a.csv").map
      csvDetailRowSpec ∧
    (parseAndCompareNem12 c7BeforeContent c7AfterContent "b.csv" "a.csv").map
      (fun i => i.after_cell_location) = ["row 3, interval 0"] ∧
    escapeCSVField "row 3, interval 0" = "\"row 3, interval 0\"" := by
  refine ⟨by decide, by decide, by decide⟩

/-- Claim C7 (amended): only the details column passes through
escapeCSVField; the other ten columns are joined verbatim, so the emitted
data row matches the fully escaped row exactly when the nine free-text
non-details fields are free of comma, quote and newline. -/
theorem c7_only_details_escaped (i : Issue)
    (h1 : cleanField i.issue_type = true) (h2 : cleanField i.nmi = true)
    (h3 : cleanField i.record_type = true) (h4 : cleanField i.channel = true)
    (h5 : cleanField i.date = true) (h6 : cleanField i.field_name = true)
    (h7 : cleanField i.after_cell_location = true)
    (h8 : cleanField i.before_value = true)
    (h9 : cleanField i.after_value = true) :
    csvDetailRow i = csvDetailRowSpec i := by
  unfold csvDetailRow csvDetailRowSpec
  rw [escapeCSVField_clean h1, escapeCSVField_clean h2, escapeCSVField_clean h3,
    escapeCSVField_clean h4, escapeCSVField_clean h5, escapeCSVField_clean h6,
    escapeCSVField_clean h7, escapeCSVField_clean h8, escapeCSVField_clean h9]

/-- Claim C7 (witness): a concrete issue with clean non-details fields and
a comma inside details, at which the code row and the spec row agree. -/
theorem c7_only_details_escaped_witness :
    csvDetailRow c7WitnessIssue = csvDetailRowSpec c7WitnessIssue :=
  c7_only_details_escaped c7WitnessIssue (by decide) (by decide) (by decide)
    (by decide) (by decide) (by decide) (by decide) (by decide) (by decide)

theorem scanQuality_eq_find (row : List String) :
    ∀ n : Nat, scanQuality row n =
      ((List.range (n + 1)).reverse).find?
        (fun i => decide (2 ≤ i) && qualCond row i) := by
  intro n
  induction n with
  | zero => simp [scanQuality, List.range_succ]
  | succ m ih =>
      match m, ih with
      | 0, _ => simp [scanQuality, List.range_succ]
      | Nat.succ k, ih =>
          have hrev : (List.range (k + 3)).reverse =
              (k + 2) :: (List.range (k + 2)).reverse := by
            rw [List.range_succ, List.reverse_append]
            rfl
          rw [hrev]
          by_cases hq : qualCond row (k + 2)
          · rw [List.find?_cons_of_pos _ (by simp [hq])]
            show (if qualCond row (k + 2) then some (k + 2)
              else scanQuality row (k + 1)) = some (k + 2)
            rw [if_pos hq]
          · rw [List.find?_cons_of_neg _ (by simp [hq])]
            show (if qualCond row (k + 2) then some (k + 2)
              else scanQuality row (k + 1)) = _
            rw [if_neg hq]
            exact ih

/-- Claim C9: the quality-flag column of a 300 row is the last cell,
scanning from the end down to index 2, that is a single character in the
flag set; a flag at an index above 2 makes the values exactly the cells
[2, qualityIdx), and otherwise the values are the slice [2, 2+expected)
clamped to the row length with expected 48 at a 30-minute interval length
and floor(1440 over the length) clamped to a minimum of 1 otherwise. -/
theorem c9_quality_scan_and_slice (row : List String) (len : Nat) (hlen : 0 < len) :
    scanQuality row (row.length - 1) = specQualityIdx row ∧
    extractValues row len = specExtractValues row len := by
  have hscan : scanQuality row (row.length - 1) = specQualityIdx row := by
    unfold specQualityIdx
    cases hrow : row.length with
    | zero => rfl
    | succ m =>
        have h1 : m + 1 - 1 = m := rfl
        rw [h1]
        exact scanQuality_eq_find row m
  refine ⟨hscan, ?_⟩
  have hexp : (if len = 30 then 48 else max 1 ((24 * 60) / (max 1 len))) =
      specExpectedCount len := by
    unfold specExpectedCount
    have hmax : max 1 len = len := by omega
    rw [hmax]
  unfold extractValues specExtractValues
  rw [hscan, hexp]

/-- Claim C9 (witness): the scan and slice agree with their spec-side
descriptions on a concrete 300 row carrying a quality flag. -/
theorem c9_quality_scan_and_slice_witness :
    scanQuality ["300", "20250101", "1.0", "2.0", "A"]
      (["300", "20250101", "1.0", "2.0", "A"].length - 1) =
      specQualityIdx ["300", "20250101", "1.0", "2.0", "A"] ∧
    extractValues ["300", "20250101", "1.0", "2.0", "A"] 30 =
      specExtractValues ["300", "20250101", "1.0", "2.0", "A"] 30 :=
  c9_quality_scan_and_slice ["300", "20250101", "1.0", "2.0", "A"] 30 (by decide)

theorem add300Values_append (date : String) (rn : Nat) :
    ∀ (values : List String) (frt nmi ch : String) (il : Nat)
      (m : IntervalMap) (nid idx : Nat),
      (∀ e ∈ m, e.1.refId < nid) →
      (add300Values date rn ⟨frt, nmi, ch, il, m, nid⟩ idx values).intervals =
        m ++ mkEntries nmi ch date rn nid idx values := by
  intro values
  induction values with
  | nil =>
      intro frt nmi ch il m nid idx hfresh
      simp [add300Values, mkEntries]
  | cons v vs ih =>
      intro frt nmi ch il m nid idx hfresh
      have hhas : mapHas m ⟨nid, nmi, ch, date, idx⟩ = false := by
        unfold mapHas
        rw [List.any_eq_false]
        intro e he
        have := hfresh e he
        simp only [decide_eq_true_eq]
        omega
      have hset : mapSet m ⟨nid, nmi, ch, date, idx⟩ ⟨v, rn⟩ =
          m ++ [(⟨nid, nmi, ch, date, idx⟩, ⟨v, rn⟩)] := by
        unfold mapSet
        rw [hhas]
        rfl
      show (add300Values date rn _ (idx + 1) vs).intervals = _
      rw [if_pos (by rw [hhas]; simp)]
      have hfresh2 : ∀ e ∈ mapSet m
          (⟨nid, nmi, ch, date, idx⟩ : KeyObj) ⟨v, rn⟩, e.1.refId < nid + 1 := by
        intro e he
        rw [hset] at he
        rcases List.mem_append.mp he with h | h
        · have := hfresh e h
          omega
        · rcases List.mem_singleton.mp h with rfl
          dsimp only
          omega
      have hstep := ih frt nmi ch il
        (mapSet m ⟨nid, nmi, ch, date, idx⟩ ⟨v, rn⟩) (nid + 1) (idx + 1) hfresh2
      exact hstep.trans (by rw [hset, List.append_assoc]; rfl)

/-- Claim C10: every cell position of the extracted value slice of a 300
row produces an interval entry, blank cells included: the cell loop
appends one entry per position with the cell text (possibly the empty
string) as the reading value, and a stored entry whose key string the
other side lacks always yields a MISSING issue carrying that (possibly
empty) value. -/
theorem c10_blank_cells_stored :
    (∀ (st : ParseState) (date : String) (rn idx : Nat) (values : List String),
      (∀ e ∈ st.intervals, e.1.refId < st.nextId) →
      (add300Values date rn st idx values).intervals =
        st.intervals ++
          mkEntries st.currentNmi st.currentChannel date rn st.nextId idx values) ∧
    (∀ (b a n1 n2 : String) (e : Entry),
      e ∈ toEntries (parseNem12Structure (parseCSV b)).intervals →
      e.keyStr ∉ keyStrs (toEntries (parseNem12Structure (parseCSV a)).intervals) →
      ∃ i ∈ parseAndCompareNem12 b a n1 n2,
        i.issue_type = "MISSING" ∧ i.before_value = e.interval.value) := by
  constructor
  · intro st date rn idx values hfresh
    cases st with
    | mk frt nmi ch il m nid =>
        exact add300Values_append date rn values frt nmi ch il m nid idx hfresh
  · intro b a n1 n2 e he hnk
    have hm : missingProto e ∈ missingProtos
        (toEntries (parseNem12Structure (parseCSV b)).intervals)
        (toEntries (parseNem12Structure (parseCSV a)).intervals) := by
      unfold missingProtos
      exact List.mem_map_of_mem missingProto
        (List.mem_filter.mpr ⟨he, by simpa using hnk⟩)
    have hall : missingProto e ∈ allProtos (parseNem12Structure (parseCSV b))
        (parseNem12Structure (parseCSV a)) n1 n2 := by
      unfold allProtos
      exact List.mem_append.mpr (Or.inl (List.mem_append.mpr (Or.inl
        (List.mem_append.mpr (Or.inr hm)))))
    rcases mem_numberIssues_of_mem hall with ⟨i, hi, hstrip⟩
    refine ⟨i, hi, ?_, ?_⟩
    · have h2 : i.issue_type = (stripSr i).issue_type := rfl
      rw [h2, hstrip]; rfl
    · have h2 : i.before_value = (stripSr i).before_value := rfl
      rw [h2, hstrip]; rfl

/-- Claim C10 (witness): the cell loop at a concrete state stores a blank
first cell as an empty-string reading next to the non-blank second cell,
and a concrete stored entry missing from the other side yields its MISSING
issue. -/
theorem c10_blank_cells_stored_witness :
    ((add300Values "20250101" 3 c10WitnessState 0 ["", "5.0"]).intervals =
      c10WitnessState.intervals ++
        mkEntries "NMI1" "E1" "20250101" 3 0 0 ["", "5.0"]) ∧
    (∃ i ∈ parseAndCompareNem12 c7BeforeContent c7AfterContent "b.csv" "a.csv",
      i.issue_type = "MISSING" ∧ i.before_value = "1.0") := by
  constructor
  · exact c10_blank_cells_stored.1 c10WitnessState "20250101" 3 0 ["", "5.0"]
      (by decide)
  · exact c10_blank_cells_stored.2 c7BeforeContent c7AfterContent "b.csv" "a.csv"
      ⟨⟨"NMI1", "E1", "20250101", 0⟩, ⟨0, "NMI1", "E1", "20250101", 0⟩, ⟨"1.0", 3⟩⟩
      (by decide) (by decide)

end NEM12
